import Mathlib

/-!
# Verification of the groq-client resilience-and-caching layer

A shallow embedding, in Lean 4, of the semantic cache
(`pkg/groq/semantic_cache/cache.go`, `embedding.go`, `config.go`) and of the
retrying HTTP transport (`doRequestWithRetry` / `isRetryableStatusCode`).

Modelling conventions:
* Go `float32` arithmetic is idealised as real arithmetic (`ℝ`); `float32`
  vectors become `List ℝ`.
* `time.Time` and `time.Duration` are idealised as `Int` instants/durations.
* `map[string]*CacheEntry` becomes an association list `List (String × CacheEntry V)`
  with no duplicate keys in reachable states; Go map assignment and deletion
  are `mapInsert` / `mapDelete`.  Pointer mutation of a looked-up entry is
  modelled as an in-place functional update at its key (`mapUpdate`).
* `*groq.ChatCompletionResponse` is an opaque payload: the cache model is
  polymorphic in the value type `V`, and `calculateSize` (a `json.Marshal`
  length) is passed as a function parameter `calcSize : V → Int`.
* `EmbeddingService.GetEmbedding` (which can fail when the context is done)
  is passed as a parameter `embed : String → Option Vector`; `none` models
  the error return.
* The uninstrumented wall-clock metric `Metrics.TotalLatency` is not modelled
  (no claim concerns it).
-/

namespace GroqClient

/-- `type Vector []float32`, idealised over `ℝ`. -/
abbrev Vector : Type := List ℝ

/-- Sum of coordinate-wise products, i.e. the dot product loop
`dotProduct += a[i] * b[i]` of `cosineSimilarity` (cache.go). -/
def dotSum (a b : Vector) : ℝ :=
  (List.zipWith (fun x y => x * y) a b).sum

/-- `cosineSimilarity` (cache.go:389-409): `0` on length mismatch, the three
accumulators `dotProduct`, `normA`, `normB` computed in one loop, square roots
taken (`normA`/`normB` are written inline below), `0` when either norm is
zero, otherwise `dotProduct / (normA * normB)`. -/
noncomputable def cosineSimilarity (a b : Vector) : ℝ :=
  if a.length ≠ b.length then 0
  else if Real.sqrt (dotSum a a) = 0 ∨ Real.sqrt (dotSum b b) = 0 then 0
  else dotSum a b / (Real.sqrt (dotSum a a) * Real.sqrt (dotSum b b))

/-- `CacheEntry` (cache.go:17-26). `Response` is the opaque payload type `V`. -/
structure CacheEntry (V : Type) where
  Key : String
  Response : V
  Embedding : Vector
  CreatedAt : Int
  LastAccessed : Int
  AccessCount : Nat
  Size : Int
  TTL : Int

/-- `isExpired` (cache.go:420-422): `now.Sub(entry.CreatedAt) > entry.TTL`. -/
def isExpired (entry : CacheEntry V) (now : Int) : Bool :=
  now - entry.CreatedAt > entry.TTL

/-- The metric counters of `Metrics` (cache.go:40-48), without the wall-clock
`TotalLatency`. -/
structure Metrics where
  TotalRequests : Nat
  CacheHits : Nat
  CacheMisses : Nat
  EvictionCount : Nat
  Size : Int

/-- The configuration fields of `Config` (config.go) that the modelled
operations consult. -/
structure Config where
  SimilarityThreshold : ℝ
  TTL : Int
  MaxCacheSize : Int

/-- The mutable state of `SemanticCache` (cache.go:28-38): the entry map, the
parallel `vectors`/`keys` arrays and the metrics. -/
structure SemanticCache (V : Type) where
  entries : List (String × CacheEntry V)
  vectors : List Vector
  keys : List String
  metrics : Metrics

/-- The state of a freshly constructed cache (`NewSemanticCache`,
cache.go:61-86, without persistence). -/
def emptyCache (V : Type) : SemanticCache V :=
  { entries := [], vectors := [], keys := [],
    metrics := { TotalRequests := 0, CacheHits := 0, CacheMisses := 0,
                 EvictionCount := 0, Size := 0 } }

/-- Go map assignment `m[k] = v`: replaces the binding of `k` if present,
otherwise adds it. -/
def mapInsert (m : List (String × α)) (k : String) (v : α) : List (String × α) :=
  m.filter (fun p => p.1 ≠ k) ++ [(k, v)]

/-- Go map deletion `delete(m, k)`. -/
def mapDelete (m : List (String × α)) (k : String) : List (String × α) :=
  m.filter (fun p => p.1 ≠ k)

/-- In-place mutation through a pointer obtained from a map lookup:
update the value bound to `k`. -/
def mapUpdate (m : List (String × α)) (k : String) (f : α → α) : List (String × α) :=
  m.map (fun p => if p.1 = k then (p.1, f p.2) else p)

/-- The sum of the `Size` fields of the entries of a map — the quantity the
running `metrics.Size` is specified to equal. -/
def sumSizes (m : List (String × CacheEntry V)) : Int :=
  (m.map (fun p => p.2.Size)).sum

/-! ## Embedding model (`embedding.go`) -/

/-- `binary.BigEndian.Uint32` over four bytes. -/
def bigEndianUint32 (b0 b1 b2 b3 : Nat) : Nat :=
  ((b0 * 256 + b1) * 256 + b2) * 256 + b3

/-- The component-construction loop of `mockEmbedding` (embedding.go:61-77):
`vector[i] = float32(bits) / float32(math.MaxUint32)` where `bits` is the
big-endian 32-bit word read at byte offset `hashIndex = (i*4) % len(hash)` of
the SHA-256 digest of the text.  SHA-256 (`crypto/sha256`, a Go standard
library primitive external to this repository) is treated as an opaque
deterministic 32-byte digest, so the digest bytes appear as the parameter
`hash`. -/
noncomputable def rawComponents (hash : List Nat) (dimension : Nat) : List ℝ :=
  (List.range dimension).map (fun i =>
    (bigEndianUint32 (hash.getD ((i * 4) % hash.length) 0)
        (hash.getD ((i * 4) % hash.length + 1) 0)
        (hash.getD ((i * 4) % hash.length + 2) 0)
        (hash.getD ((i * 4) % hash.length + 3) 0) : ℝ) / 4294967295)

/-- `normalize` (embedding.go:85-99): the loop `sum += x * x` over `v` is
`dotSum v v`; the function is a no-op when `magnitude = √sum` is zero and
otherwise divides every component by the magnitude. -/
noncomputable def normalize (v : List ℝ) : List ℝ :=
  if Real.sqrt (dotSum v v) = 0 then v
  else v.map (fun x => x / Real.sqrt (dotSum v v))

/-- `mockEmbedding` (embedding.go:61-77), as a function of the text's SHA-256
digest bytes and of the requested dimension. -/
noncomputable def mockEmbedding (hash : List Nat) (dimension : Nat) : List ℝ :=
  normalize (rawComponents hash dimension)

/-! ## Retrying transport model (`doRequestWithRetry`, `isRetryableStatusCode`)

The retry loop observes three kinds of events, in program order inside each
iteration of `for attempt := 0; attempt <= MaxRetries; attempt++`:

1. the non-blocking `select` on `ctx.Done()` at the top of the iteration;
2. `time.Sleep(RetryWaitTime * attempt)` when `attempt > 0` — a plain sleep,
   with no select on the context;
3. the wrapped operation `c.client.Do(req, resp)`.

We model the passage of time by a discrete event clock: each of these events
occupies one tick.  The caller's context is a monotone cancellation signal
`doneAt : Option Nat` — the context is done at every tick `t` with
`doneAt = some d` and `d ≤ t`.  The outcome of the `i`-th invocation of
`client.Do` is given by the environment `attemptResult : Nat → DoResult`.
The model returns the function result together with the number of times the
wrapped operation was actually invoked. -/

/-- The outcome of one `c.client.Do(req, resp)` call: a transport error or a
response carrying a status code. -/
inductive DoResult where
  | failure (errCode : Nat)
  | response (status : Nat)
deriving DecidableEq

/-- The error recorded in `lastErr`: either a transport error from
`client.Do` or the `fmt.Errorf("received status code %d", ...)` made from a
retryable status. -/
inductive AttemptError where
  | transport (errCode : Nat)
  | badStatus (status : Nat)
deriving DecidableEq

/-- The value `doRequestWithRetry` returns: `nil` on success, `ctx.Err()` on a
context-done check, or `fmt.Errorf("max retries exceeded: %w", lastErr)`
(wrapping `lastErr`, which is `nil` only if the loop body never ran). -/
inductive RetryReturn where
  | ok
  | ctxError
  | maxRetriesExceeded (lastErr : Option AttemptError)
deriving DecidableEq

/-- `isRetryableStatusCode` (part_007:365-377): true exactly on
429, 500, 502, 503, 504. -/
def isRetryableStatusCode (statusCode : Nat) : Bool :=
  statusCode == 429 || statusCode == 500 || statusCode == 502
    || statusCode == 503 || statusCode == 504

/-- Whether the caller's context is done at event-clock tick `t`. -/
def ctxDoneAt (doneAt : Option Nat) (t : Nat) : Bool :=
  match doneAt with
  | none => false
  | some d => d ≤ t

/-- One execution of the loop body of `doRequestWithRetry` (part_007:262-289)
and its continuation; `remaining` counts the iterations the `for` loop has
left (initially `MaxRetries + 1`), `attempt` is the loop variable, `clock`
the event clock, `made` the number of `client.Do` invocations so far and
`lastErr` the recorded last error.  Exiting the loop returns
`maxRetriesExceeded lastErr`. -/
def retryLoop (doneAt : Option Nat) (attemptResult : Nat → DoResult) :
    Nat → Nat → Nat → Nat → Option AttemptError → RetryReturn × Nat
  | 0, _, _, made, lastErr => (RetryReturn.maxRetriesExceeded lastErr, made)
  | remaining + 1, attempt, clock, made, lastErr =>
    if ctxDoneAt doneAt clock then (RetryReturn.ctxError, made)
    else
      -- one tick for the select, one tick for the sleep when attempt > 0
      let clockAfterSleep := if attempt > 0 then clock + 2 else clock + 1
      match attemptResult attempt with
      | DoResult.failure errCode =>
          retryLoop doneAt attemptResult remaining (attempt + 1)
            (clockAfterSleep + 1) (made + 1) (some (AttemptError.transport errCode))
      | DoResult.response status =>
          if ¬isRetryableStatusCode status then (RetryReturn.ok, made + 1)
          else
            retryLoop doneAt attemptResult remaining (attempt + 1)
              (clockAfterSleep + 1) (made + 1) (some (AttemptError.badStatus status))

/-- `doRequestWithRetry` (part_007:262-289): run the loop for
`maxRetries + 1` iterations starting from attempt 0, clock 0, no operation
invocations, `lastErr = nil`. -/
def doRequestWithRetry (maxRetries : Nat) (doneAt : Option Nat)
    (attemptResult : Nat → DoResult) : RetryReturn × Nat :=
  retryLoop doneAt attemptResult (maxRetries + 1) 0 0 0 none

/-- The `lastErr` value recorded after an unsuccessful attempt. -/
def errOf : DoResult → AttemptError
  | DoResult.failure errCode => AttemptError.transport errCode
  | DoResult.response status => AttemptError.badStatus status

/-! ## Semantic cache operations (`cache.go`) -/

/-- The scan loop of `Get` (cache.go:174-188), faithfully including its
indexing expression: whenever `sim > maxSim && sim >= threshold`, the code
reads `key := sc.keys[len(sc.vectors)-1]` — the key at the *fixed* index
`len(vectors)-1`, not the index of the vector currently being compared — and,
if that key's entry exists and is not expired, makes it the best entry.  The
accumulator is `(maxSim, bestEntry)`, with `bestEntry` carrying the map key
it was found under (in Go, a pointer into the map).  Out-of-range indexing
(possible only when the parallel arrays are desynchronised; Go would panic)
is modelled by `List.getD` with default `""`. -/
noncomputable def scanStep (threshold : ℝ) (entries : List (String × CacheEntry V))
    (lastKey : String) (queryVector : Vector) (now : Int)
    (acc : ℝ × Option (String × CacheEntry V)) (vec : Vector) :
    ℝ × Option (String × CacheEntry V) :=
  if cosineSimilarity queryVector vec > acc.1
      ∧ cosineSimilarity queryVector vec ≥ threshold then
    (cosineSimilarity queryVector vec,
      match List.lookup lastKey entries with
      | some entry =>
          if isExpired entry now then acc.2 else some (lastKey, entry)
      | none => acc.2)
  else acc

/-- The index expression `len(sc.vectors)-1` is invariant across the loop, so
the key it selects is computed once and passed to every iteration as
`lastKey`. -/
noncomputable def scanBest (threshold : ℝ) (entries : List (String × CacheEntry V))
    (keys : List String) (vectors : List Vector) (queryVector : Vector)
    (now : Int) : Option (String × CacheEntry V) :=
  (vectors.foldl
    (scanStep threshold entries (keys.getD (vectors.length - 1) "") queryVector now)
    ((-1 : ℝ), (none : Option (String × CacheEntry V)))).2

/-- `Get` (cache.go:158-199).  The deferred block increments `TotalRequests`
on every path; an embedding failure counts a miss and touches nothing else; a
found best entry has its `LastAccessed`/`AccessCount` mutated through the map
pointer and counts a hit; otherwise a miss is counted. -/
noncomputable def Get (cfg : Config) (embed : String → Option Vector) (now : Int)
    (s : SemanticCache V) (query : String) :
    (Option V × Bool) × SemanticCache V :=
  match embed query with
  | none =>
      ((none, false),
        { s with metrics := { s.metrics with
            CacheMisses := s.metrics.CacheMisses + 1,
            TotalRequests := s.metrics.TotalRequests + 1 } })
  | some queryVector =>
      match scanBest cfg.SimilarityThreshold s.entries s.keys s.vectors
          queryVector now with
      | some best =>
          ((some best.2.Response, true),
            { s with
              entries := mapUpdate s.entries best.1 (fun e =>
                { e with LastAccessed := now, AccessCount := e.AccessCount + 1 }),
              metrics := { s.metrics with
                CacheHits := s.metrics.CacheHits + 1,
                TotalRequests := s.metrics.TotalRequests + 1 } })
      | none =>
          ((none, false),
            { s with metrics := { s.metrics with
                CacheMisses := s.metrics.CacheMisses + 1,
                TotalRequests := s.metrics.TotalRequests + 1 } })

/-- The comparison `entries[i].LastAccessed.Before(entries[j].LastAccessed)`
of the `sort.Slice` call in `prune` (cache.go:340-342), taken reflexively:
`sort.Slice` guarantees only a nondecreasing arrangement, with ties in
unspecified order, which insertion sort by this total preorder realises. -/
def leLastAccessed (a b : String × CacheEntry V) : Prop :=
  a.2.LastAccessed ≤ b.2.LastAccessed

instance : DecidableRel (@leLastAccessed V) := fun a b => Int.decLe _ _

instance : IsTotal (String × CacheEntry V) leLastAccessed :=
  ⟨fun a b => Int.le_total a.2.LastAccessed b.2.LastAccessed⟩

instance : IsTrans (String × CacheEntry V) leLastAccessed :=
  ⟨fun _ _ _ hab hbc => Int.le_trans hab hbc⟩

/-- The sorted copy of the surviving entries built in `prune`
(cache.go:335-342). -/
def sortByLastAccessed (l : List (String × CacheEntry V)) :
    List (String × CacheEntry V) :=
  List.insertionSort leLastAccessed l

/-- The size-budget eviction loop of `prune` (cache.go:344-351): walk the
sorted entries, stop as soon as `metrics.Size <= MaxCacheSize`, otherwise
delete the entry from the map, subtract its size and count it.  Returns the
new running size, the surviving entries and the number evicted. -/
def evictLRU (maxCacheSize : Int) :
    Int → List (String × CacheEntry V) → Int × List (String × CacheEntry V) × Nat
  | size, [] => (size, [], 0)
  | size, e :: rest =>
    if size ≤ maxCacheSize then (size, e :: rest, 0)
    else
      let r := evictLRU maxCacheSize (size - e.2.Size) rest
      (r.1, r.2.1, r.2.2 + 1)

/-- `prune` (cache.go:322-357): delete the expired entries (subtracting their
sizes); when the running size still exceeds `MaxCacheSize`, evict the
remaining entries in ascending `LastAccessed` order until within budget; add
the total number removed to `EvictionCount`; rebuild the parallel arrays from
the surviving entry map (`rebuildVectorsAndKeys`, cache.go:363-371). -/
def prune (cfg : Config) (now : Int) (s : SemanticCache V) : SemanticCache V :=
  let afterTTL := s.entries.filter (fun p => !isExpired p.2 now)
  let expired := s.entries.filter (fun p => isExpired p.2 now)
  let sizeAfterTTL := s.metrics.Size - sumSizes expired
  let r := if sizeAfterTTL > cfg.MaxCacheSize then
      evictLRU cfg.MaxCacheSize sizeAfterTTL (sortByLastAccessed afterTTL)
    else (sizeAfterTTL, afterTTL, 0)
  { entries := r.2.1,
    vectors := r.2.1.map (fun p => p.2.Embedding),
    keys := r.2.1.map (fun p => p.1),
    metrics := { s.metrics with
      Size := r.1,
      EvictionCount := s.metrics.EvictionCount + expired.length + r.2.2 } }

/-- `Set` (cache.go:217-251): embed the query (an error aborts with a failed
write and no mutation), prune first when the insert would push the running
size over `MaxCacheSize`, then insert/overwrite the entry keyed by the query,
append the vector and the key to the parallel arrays and add the entry's
size to the running total.  (The asynchronous best-effort persistence of
cache.go:246-248 does not affect the in-memory state and is not modelled.) -/
def Set (cfg : Config) (embed : String → Option Vector) (calcSize : V → Int)
    (now : Int) (s : SemanticCache V) (query : String) (response : V) :
    Except String Unit × SemanticCache V :=
  match embed query with
  | none => (Except.error "failed to get embedding", s)
  | some vector =>
    let entrySize := calcSize response
    let s1 := if s.metrics.Size + entrySize > cfg.MaxCacheSize
      then prune cfg now s else s
    (Except.ok (),
      { s1 with
        entries := mapInsert s1.entries query
          { Key := query, Response := response, Embedding := vector,
            CreatedAt := now, LastAccessed := now, AccessCount := 0,
            Size := entrySize, TTL := cfg.TTL },
        vectors := s1.vectors ++ [vector],
        keys := s1.keys ++ [query],
        metrics := { s1.metrics with Size := s1.metrics.Size + entrySize } })

/-- `Delete` (cache.go:263-280): when the key is present, subtract the
entry's size, remove it from the map and splice the first occurrence of the
key out of both parallel arrays; always returns `nil`. -/
def Delete (s : SemanticCache V) (key : String) : SemanticCache V :=
  match List.lookup key s.entries with
  | some entry =>
      { entries := mapDelete s.entries key,
        vectors := s.vectors.eraseIdx (s.keys.indexOf key),
        keys := s.keys.eraseIdx (s.keys.indexOf key),
        metrics := { s.metrics with Size := s.metrics.Size - entry.Size } }
  | none => s

/-- `Clear` (cache.go:289-298): empty the map and both arrays and zero the
running size; the hit/miss/eviction/request counters are untouched; always
returns `nil`. -/
def Clear (s : SemanticCache V) : SemanticCache V :=
  { entries := [], vectors := [], keys := [],
    metrics := { s.metrics with Size := 0 } }

/-- `groq.CacheStats` as filled in by `GetStats` (cache.go:307-314). -/
structure CacheStats where
  Hits : Nat
  Misses : Nat
  Size : Int
  ItemCount : Nat
deriving DecidableEq

/-- `GetStats` (cache.go:307-314). -/
def GetStats (s : SemanticCache V) : CacheStats :=
  { Hits := s.metrics.CacheHits, Misses := s.metrics.CacheMisses,
    Size := s.metrics.Size, ItemCount := s.entries.length }

/-- A public cache operation together with the instant at which it runs, for
stating metric invariants over arbitrary call sequences. -/
inductive CacheOp (V : Type) where
  | get (now : Int) (query : String)
  | set (now : Int) (query : String) (value : V)
  | del (key : String)
  | clear

/-- The state transition of one public operation. -/
noncomputable def applyOp (cfg : Config) (embed : String → Option Vector)
    (calcSize : V → Int) (s : SemanticCache V) : CacheOp V → SemanticCache V
  | CacheOp.get now q => (Get cfg embed now s q).2
  | CacheOp.set now q v => (Set cfg embed calcSize now s q v).2
  | CacheOp.del k => Delete s k
  | CacheOp.clear => Clear s

/-- Run a sequence of public operations from a starting state. -/
noncomputable def runOps (cfg : Config) (embed : String → Option Vector)
    (calcSize : V → Int) (s : SemanticCache V) (ops : List (CacheOp V)) :
    SemanticCache V :=
  ops.foldl (applyOp cfg embed calcSize) s

/-- A concrete configuration for concrete evaluations: threshold 0.85 (the
default), a TTL of 100 time units and a budget of 1000000 bytes. -/
noncomputable def cfgW : Config :=
  { SimilarityThreshold := 0.85, TTL := 100, MaxCacheSize := 1000000 }

/-- A live entry whose vector points along the first axis (for concrete
evaluations of `Get`). -/
noncomputable def entryA : CacheEntry Nat :=
  { Key := "a", Response := 1, Embedding := [1, 0], CreatedAt := 0,
    LastAccessed := 0, AccessCount := 0, Size := 1, TTL := 100 }

/-- A live entry whose vector points along the second axis. -/
noncomputable def entryB : CacheEntry Nat :=
  { Key := "b", Response := 2, Embedding := [0, 1], CreatedAt := 0,
    LastAccessed := 0, AccessCount := 0, Size := 1, TTL := 100 }

/-- A consistent two-entry cache state holding `entryA` and `entryB`, with
the parallel arrays in lock-step with the map. -/
noncomputable def sC1 : SemanticCache Nat :=
  { entries := [("a", entryA), ("b", entryB)],
    vectors := [[1, 0], [0, 1]],
    keys := ["a", "b"],
    metrics := { TotalRequests := 0, CacheHits := 0, CacheMisses := 0,
                 EvictionCount := 0, Size := 2 } }

/-- A configuration with a 5-byte cache budget, for exercising the eviction
path of `prune` concretely. -/
noncomputable def cfgSmall : Config :=
  { SimilarityThreshold := 0.85, TTL := 100, MaxCacheSize := 5 }

/-- A live 3-byte entry, least recently accessed. -/
noncomputable def entryP1 : CacheEntry Nat :=
  { Key := "p1", Response := 1, Embedding := [], CreatedAt := 0,
    LastAccessed := 1, AccessCount := 0, Size := 3, TTL := 100 }

/-- A live 4-byte entry, most recently accessed. -/
noncomputable def entryP2 : CacheEntry Nat :=
  { Key := "p2", Response := 2, Embedding := [], CreatedAt := 0,
    LastAccessed := 2, AccessCount := 0, Size := 4, TTL := 100 }

/-- A consistent over-budget state (7 bytes against a 5-byte budget). -/
noncomputable def sPruneW : SemanticCache Nat :=
  { entries := [("p1", entryP1), ("p2", entryP2)],
    vectors := [[], []],
    keys := ["p1", "p2"],
    metrics := { TotalRequests := 0, CacheHits := 0, CacheMisses := 0,
                 EvictionCount := 0, Size := 7 } }

/-! ## Basic facts about `dotSum` and `cosineSimilarity` -/

theorem dotSum_comm (a b : Vector) : dotSum a b = dotSum b a := by
  unfold dotSum
  rw [List.zipWith_comm_of_comm _ mul_comm]

theorem dotSum_self_nonneg (a : Vector) : 0 ≤ dotSum a a := by
  induction a with
  | nil => simp [dotSum]
  | cons x xs ih =>
    simpa [dotSum, List.sum_cons] using add_nonneg (mul_self_nonneg x) ih

theorem sqrt_dotSum_self_ne_zero {a : Vector} (h : dotSum a a ≠ 0) :
    Real.sqrt (dotSum a a) ≠ 0 := by
  intro hc
  rw [Real.sqrt_eq_zero'] at hc
  exact h (le_antisymm hc (dotSum_self_nonneg a))

theorem cosineSimilarity_comm (a b : Vector) :
    cosineSimilarity a b = cosineSimilarity b a := by
  unfold cosineSimilarity
  rcases eq_or_ne a.length b.length with h | h
  · have h1 : ¬a.length ≠ b.length := fun hc => hc h
    have h2 : ¬b.length ≠ a.length := fun hc => hc h.symm
    rw [if_neg h1, if_neg h2]
    by_cases hz : Real.sqrt (dotSum a a) = 0 ∨ Real.sqrt (dotSum b b) = 0
    · have hz' : Real.sqrt (dotSum b b) = 0 ∨ Real.sqrt (dotSum a a) = 0 := Or.symm hz
      rw [if_pos hz, if_pos hz']
    · have hz' : ¬(Real.sqrt (dotSum b b) = 0 ∨ Real.sqrt (dotSum a a) = 0) :=
        fun hc => hz (Or.symm hc)
      rw [if_neg hz, if_neg hz', dotSum_comm a b, mul_comm]
  · have h2 : b.length ≠ a.length := Ne.symm h
    rw [if_pos h, if_pos h2]

theorem cosineSimilarity_length_ne {a b : Vector} (h : a.length ≠ b.length) :
    cosineSimilarity a b = 0 := by
  unfold cosineSimilarity
  rw [if_pos h]

theorem cosineSimilarity_zero_magnitude {a b : Vector}
    (h : dotSum a a = 0 ∨ dotSum b b = 0) : cosineSimilarity a b = 0 := by
  unfold cosineSimilarity
  rcases eq_or_ne a.length b.length with hl | hl
  · have h1 : ¬a.length ≠ b.length := fun hc => hc hl
    have h2 : Real.sqrt (dotSum a a) = 0 ∨ Real.sqrt (dotSum b b) = 0 := by
      rcases h with h | h
      · exact Or.inl (by rw [h, Real.sqrt_zero])
      · exact Or.inr (by rw [h, Real.sqrt_zero])
    rw [if_neg h1, if_pos h2]
  · rw [if_pos hl]

theorem cosineSimilarity_self {a : Vector} (h : dotSum a a ≠ 0) :
    cosineSimilarity a a = 1 := by
  unfold cosineSimilarity
  have h1 : ¬a.length ≠ a.length := fun hc => hc rfl
  have h2 : ¬(Real.sqrt (dotSum a a) = 0 ∨ Real.sqrt (dotSum a a) = 0) := by
    intro hc
    rcases hc with hc | hc <;> exact sqrt_dotSum_self_ne_zero h hc
  rw [if_neg h1, if_neg h2, Real.mul_self_sqrt (dotSum_self_nonneg a), div_self h]

theorem cosineSimilarity_self_nonneg (a : Vector) : 0 ≤ cosineSimilarity a a := by
  rcases eq_or_ne (dotSum a a) 0 with h | h
  · rw [cosineSimilarity_zero_magnitude (Or.inl h)]
  · rw [cosineSimilarity_self h]
    exact zero_le_one

/-! ## Claim C7 -/

/-- C7 (counterexample): the claim "for all vectors `a`,
`cosineSimilarity(a,a)` equals 1" is false at the concrete input `a = [0]`:
the zero-magnitude guard makes the function return `0`, and `0 ≠ 1`. -/
theorem C7_counterexample :
    cosineSimilarity [(0 : ℝ)] [(0 : ℝ)] = 0 ∧ (0 : ℝ) ≠ 1 := by
  constructor
  · exact cosineSimilarity_zero_magnitude (Or.inl (by norm_num [dotSum]))
  · norm_num

/-- C7 (amended): `cosineSimilarity` is symmetric; it returns 0 when the two
vectors have different lengths or when either vector has zero magnitude
(zero sum of squared coordinates); and `cosineSimilarity a a = 1` for every
vector `a` of nonzero magnitude (over the idealised reals the result is
exact).  The original claim's "for all `a`" identity conjunct is weakened to
nonzero-magnitude `a`, as forced by `C7_counterexample`. -/
theorem C7_cosine_properties :
    (∀ a b : Vector, cosineSimilarity a b = cosineSimilarity b a)
    ∧ (∀ a b : Vector, a.length ≠ b.length → cosineSimilarity a b = 0)
    ∧ (∀ a b : Vector, dotSum a a = 0 ∨ dotSum b b = 0 → cosineSimilarity a b = 0)
    ∧ (∀ a : Vector, dotSum a a ≠ 0 → cosineSimilarity a a = 1) :=
  ⟨cosineSimilarity_comm,
   fun _ _ h => cosineSimilarity_length_ne h,
   fun _ _ h => cosineSimilarity_zero_magnitude h,
   fun _ h => cosineSimilarity_self h⟩

/-- C7 (witness): the amended theorem applied at concrete inputs — a length
mismatch yields 0, and the self-similarity of the nonzero vector `[2]` is 1. -/
theorem C7_cosine_properties_witness :
    cosineSimilarity [(1 : ℝ)] [(1 : ℝ), 2] = 0
    ∧ cosineSimilarity [(2 : ℝ)] [(2 : ℝ)] = 1 :=
  ⟨C7_cosine_properties.2.1 _ _ (by simp),
   C7_cosine_properties.2.2.2 _ (by norm_num [dotSum])⟩

/-! ## Claim C8 -/

theorem eq_zero_of_dotSum_self_eq_zero :
    ∀ {v : List ℝ}, dotSum v v = 0 → ∀ x ∈ v, x = 0 := by
  intro v
  induction v with
  | nil => intro _ x hx; cases hx
  | cons y ys ih =>
    intro h x hx
    have hsum : y * y + dotSum ys ys = 0 := by
      simpa [dotSum] using h
    have hy : y * y = 0 ∧ dotSum ys ys = 0 := by
      constructor
      · nlinarith [dotSum_self_nonneg ys, mul_self_nonneg y]
      · nlinarith [dotSum_self_nonneg ys, mul_self_nonneg y]
    rcases List.mem_cons.mp hx with rfl | hx
    · exact mul_self_eq_zero.mp hy.1
    · exact ih hy.2 x hx

theorem dotSum_map_div (v : List ℝ) (m : ℝ) :
    dotSum (v.map (fun x => x / m)) (v.map (fun x => x / m))
      = dotSum v v / (m * m) := by
  induction v with
  | nil => simp [dotSum]
  | cons y ys ih =>
    simp only [List.map_cons, dotSum, List.zipWith_cons_cons, List.sum_cons] at *
    rw [ih, div_mul_div_comm, div_add_div_same]

theorem normalize_length (v : List ℝ) : (normalize v).length = v.length := by
  unfold normalize
  split <;> simp

theorem rawComponents_length (hash : List Nat) (d : Nat) :
    (rawComponents hash d).length = d := by
  simp [rawComponents]

theorem getD_replicate_zero (n i : Nat) :
    (List.replicate n (0 : Nat)).getD i 0 = 0 := by
  rcases Nat.lt_or_ge i n with h | h
  · simp [List.getD, List.getElem?_replicate, h]
  · simp [List.getD, List.getElem?_replicate, Nat.not_lt.mpr h]

theorem rawComponents_nonneg (hash : List Nat) (d : Nat) :
    ∀ x ∈ rawComponents hash d, 0 ≤ x := by
  intro x hx
  simp only [rawComponents, List.mem_map] at hx
  obtain ⟨i, _, rfl⟩ := hx
  positivity

/-- C8: the fallback embedding is deterministic — as a pure function of the
text's SHA-256 digest and the dimension, equal inputs yield equal vectors —
of length exactly `dimension`; whenever the hash-derived raw components have
zero magnitude the result is exactly the zero vector (normalization is a
no-op), and otherwise the result has exactly unit L2 magnitude (sum of
squared components `= 1`) over the idealised reals. -/
theorem C8_mockEmbedding_deterministic_unit (hash : List Nat) (d : Nat)
    (_hd : 0 < d) :
    mockEmbedding hash d = mockEmbedding hash d
    ∧ (mockEmbedding hash d).length = d
    ∧ (dotSum (rawComponents hash d) (rawComponents hash d) = 0 →
        mockEmbedding hash d = List.replicate d 0)
    ∧ (dotSum (rawComponents hash d) (rawComponents hash d) ≠ 0 →
        dotSum (mockEmbedding hash d) (mockEmbedding hash d) = 1) := by
  refine ⟨rfl, ?_, ?_, ?_⟩
  · rw [mockEmbedding, normalize_length, rawComponents_length]
  · intro h
    have hz : Real.sqrt (dotSum (rawComponents hash d) (rawComponents hash d)) = 0 := by
      rw [h, Real.sqrt_zero]
    rw [mockEmbedding, normalize, if_pos hz]
    rw [List.eq_replicate_iff]
    exact ⟨rawComponents_length hash d,
      eq_zero_of_dotSum_self_eq_zero h⟩
  · intro h
    have hz := sqrt_dotSum_self_ne_zero h
    rw [mockEmbedding, normalize, if_neg hz, dotSum_map_div,
      Real.mul_self_sqrt (dotSum_self_nonneg _), div_self h]

/-- C8 (witness): the theorem applied to the all-zero 32-byte digest at
dimension 4 — the degenerate case, where the embedding is exactly the zero
vector of length 4. -/
theorem C8_mockEmbedding_witness :
    (mockEmbedding (List.replicate 32 0) 4).length = 4
    ∧ mockEmbedding (List.replicate 32 0) 4 = List.replicate 4 0 := by
  have hraw : dotSum (rawComponents (List.replicate 32 0) 4)
      (rawComponents (List.replicate 32 0) 4) = 0 := by
    have : rawComponents (List.replicate 32 0) 4 = List.replicate 4 0 := by
      rw [List.eq_replicate_iff]
      refine ⟨rawComponents_length _ _, ?_⟩
      intro b hb
      simp only [rawComponents, List.mem_map] at hb
      obtain ⟨i, _, rfl⟩ := hb
      simp only [getD_replicate_zero, bigEndianUint32]
      norm_num
    rw [this]
    simp [dotSum]
  exact ⟨(C8_mockEmbedding_deterministic_unit (List.replicate 32 0) 4 (by norm_num)).2.1,
    (C8_mockEmbedding_deterministic_unit (List.replicate 32 0) 4 (by norm_num)).2.2.1 hraw⟩

/-! ## Claims C3 and C4 -/

theorem retryLoop_success (f : Nat → DoResult) (maxRetries : Nat)
    (hfail : ∀ i < maxRetries,
      ∃ s, f i = DoResult.response s ∧ isRetryableStatusCode s = true)
    (hsucc : ∃ s, f maxRetries = DoResult.response s
      ∧ isRetryableStatusCode s = false) :
    ∀ remaining attempt clock made lastErr,
      attempt + remaining = maxRetries + 1 → attempt ≤ maxRetries →
      retryLoop none f remaining attempt clock made lastErr
        = (RetryReturn.ok, made + remaining) := by
  intro remaining
  induction remaining with
  | zero => intro attempt clock made lastErr h hle; omega
  | succ r ih =>
    intro attempt clock made lastErr h hle
    rw [retryLoop]
    have hden : ctxDoneAt none clock = false := rfl
    rw [hden]
    simp only [Bool.false_eq_true, if_false]
    rcases Nat.eq_zero_or_pos r with hr | hr
    · subst hr
      have hat : attempt = maxRetries := by omega
      subst hat
      obtain ⟨s, hs, hns⟩ := hsucc
      rw [hs]
      simp [hns]
    · have hat : attempt < maxRetries := by omega
      obtain ⟨s, hs, hrs⟩ := hfail attempt hat
      rw [hs]
      simp only [hrs, not_true, if_neg, ite_false, Bool.true_eq_false]
      rw [ih (attempt + 1) _ (made + 1) _ (by omega) (by omega)]
      have : made + 1 + r = made + (r + 1) := by omega
      rw [this]

theorem retryLoop_allFail (f : Nat → DoResult) (maxRetries : Nat)
    (hfail : ∀ i, (∃ e, f i = DoResult.failure e)
      ∨ (∃ s, f i = DoResult.response s ∧ isRetryableStatusCode s = true)) :
    ∀ remaining attempt clock made lastErr,
      attempt + remaining = maxRetries + 1 → attempt ≤ maxRetries →
      retryLoop none f remaining attempt clock made lastErr
        = (RetryReturn.maxRetriesExceeded (some (errOf (f maxRetries))),
           made + remaining) := by
  intro remaining
  induction remaining with
  | zero => intro attempt clock made lastErr h hle; omega
  | succ r ih =>
    intro attempt clock made lastErr h hle
    rw [retryLoop]
    have hden : ctxDoneAt none clock = false := rfl
    rw [hden]
    simp only [Bool.false_eq_true, if_false]
    rcases Nat.eq_zero_or_pos r with hr | hr
    · subst hr
      have hat : attempt = maxRetries := by omega
      subst hat
      rcases hfail attempt with ⟨e, he⟩ | ⟨s, hs, hrs⟩
      · simp [he, retryLoop, errOf]
      · simp [hs, hrs, retryLoop, errOf]
    · have hat : attempt < maxRetries := by omega
      rcases hfail attempt with ⟨e, he⟩ | ⟨s, hs, hrs⟩
      · simp only [he]
        rw [ih (attempt + 1) _ (made + 1) _ (by omega) (by omega)]
        have : made + 1 + r = made + (r + 1) := by omega
        rw [this]
      · have hc : ¬(¬isRetryableStatusCode s = true) := by simp [hrs]
        simp only [hs]
        rw [if_neg hc]
        rw [ih (attempt + 1) _ (made + 1) _ (by omega) (by omega)]
        have : made + 1 + r = made + (r + 1) := by omega
        rw [this]

/-- C4: with the caller's context never done, (a) an operation that answers a
retryable status on each of its first `MaxRetries` attempts and a
non-retryable status on the next one makes `doRequestWithRetry` return
success (`nil`) having invoked the operation exactly `MaxRetries + 1` times;
(b) an operation that fails on every attempt (transport error or retryable
status) is invoked exactly `MaxRetries + 1` times and the call returns the
"max retries exceeded" error wrapping the last attempt's error. -/
theorem C4_retry_attempt_counts (maxRetries : Nat) (f : Nat → DoResult) :
    ((∀ i < maxRetries,
        ∃ s, f i = DoResult.response s ∧ isRetryableStatusCode s = true) →
      (∃ s, f maxRetries = DoResult.response s
        ∧ isRetryableStatusCode s = false) →
      doRequestWithRetry maxRetries none f = (RetryReturn.ok, maxRetries + 1))
    ∧ ((∀ i, (∃ e, f i = DoResult.failure e)
        ∨ (∃ s, f i = DoResult.response s ∧ isRetryableStatusCode s = true)) →
      doRequestWithRetry maxRetries none f
        = (RetryReturn.maxRetriesExceeded (some (errOf (f maxRetries))),
           maxRetries + 1)) := by
  constructor
  · intro hfail hsucc
    rw [doRequestWithRetry,
      retryLoop_success f maxRetries hfail hsucc (maxRetries + 1) 0 0 0 none
        (by omega) (by omega)]
    rw [Nat.zero_add]
  · intro hfail
    rw [doRequestWithRetry,
      retryLoop_allFail f maxRetries hfail (maxRetries + 1) 0 0 0 none
        (by omega) (by omega)]
    rw [Nat.zero_add]

/-- C4 (witness): the theorem applied with `MaxRetries = 1` to (a) an
operation answering 500 then 200, which succeeds after exactly 2 invocations,
and (b) an operation always failing with transport error 7, which exhausts
its 2 invocations and surfaces that error. -/
theorem C4_retry_attempt_counts_witness :
    doRequestWithRetry 1 none
        (fun i => if i = 0 then DoResult.response 500 else DoResult.response 200)
      = (RetryReturn.ok, 2)
    ∧ doRequestWithRetry 1 none (fun _ => DoResult.failure 7)
      = (RetryReturn.maxRetriesExceeded (some (AttemptError.transport 7)), 2) :=
  ⟨(C4_retry_attempt_counts 1
      (fun i => if i = 0 then DoResult.response 500 else DoResult.response 200)).1
      (fun i hi => by
        have h0 : i = 0 := by omega
        subst h0
        exact ⟨500, rfl, rfl⟩)
      ⟨200, rfl, rfl⟩,
   (C4_retry_attempt_counts 1 (fun _ => DoResult.failure 7)).2
      (fun i => Or.inl ⟨7, rfl⟩)⟩

/-- C3: evidence that the backoff sleep is not cancellable and that a
context cancelled during the sleep does not stop the following attempt.
Scenario, with `MaxRetries = 1`: attempt 0 is checked at tick 0 (context not
yet done), invoked at tick 1 and answers retryable status 500; iteration 1
checks the context at tick 2 (still not done), sleeps through tick 3 — the
context becomes done exactly at tick 3, i.e. during the backoff sleep — and
then invokes the operation anyway at tick 4, which answers 200, so the call
returns success after 2 invocations.  The claim instead requires the call to
abort with the context's error without that second invocation. -/
theorem C3_sleep_not_cancellable_eval :
    doRequestWithRetry 1 (some 3)
        (fun i => if i = 0 then DoResult.response 500 else DoResult.response 200)
      = (RetryReturn.ok, 2)
    ∧ ctxDoneAt (some 3) 2 = false
    ∧ ctxDoneAt (some 3) 3 = true := by
  refine ⟨?_, rfl, rfl⟩
  rfl

/-! ## Claim C9 -/

/-- C9: when the embedding provider fails for the query
(`embed query = none`), `Set` returns an error and leaves the entire cache
state unchanged — nothing is stored — and `Get` under the same failure
returns a miss `(nil, false)` without storing or mutating any entry: the
entry map, both index arrays and the running size total are unchanged (only
the miss and request counters advance). -/
theorem C9_embedding_failure (cfg : Config) (embed : String → Option Vector)
    (calcSize : V → Int) (now : Int) (s : SemanticCache V) (query : String)
    (v : V) (hfail : embed query = none) :
    (Set cfg embed calcSize now s query v).1
      = Except.error "failed to get embedding"
    ∧ (Set cfg embed calcSize now s query v).2 = s
    ∧ (Get cfg embed now s query).1 = (none, false)
    ∧ (Get cfg embed now s query).2.entries = s.entries
    ∧ (Get cfg embed now s query).2.vectors = s.vectors
    ∧ (Get cfg embed now s query).2.keys = s.keys
    ∧ (Get cfg embed now s query).2.metrics.Size = s.metrics.Size := by
  refine ⟨?_, ?_, ?_, ?_, ?_, ?_, ?_⟩ <;> simp [Set, Get, hfail]

/-- C9 (witness): the theorem applied to a provider that always fails, on a
fresh cache. -/
theorem C9_embedding_failure_witness :
    (Set cfgW (fun _ => none) (fun _ => (1 : Int)) 0 (emptyCache Nat) "q" 7).1
      = Except.error "failed to get embedding"
    ∧ (Get cfgW (fun _ => none) 0 (emptyCache Nat) "q").1 = (none, false) :=
  ⟨(C9_embedding_failure cfgW (fun _ => none) (fun _ => (1 : Int)) 0
      (emptyCache Nat) "q" 7 rfl).1,
   (C9_embedding_failure cfgW (fun _ => none) (fun _ => (1 : Int)) 0
      (emptyCache Nat) "q" 7 rfl).2.2.1⟩

/-! ## Claim C10 -/

theorem Get_metrics (cfg : Config) (embed : String → Option Vector) (now : Int)
    (s : SemanticCache V) (q : String) :
    (Get cfg embed now s q).2.metrics.TotalRequests
      = s.metrics.TotalRequests + 1
    ∧ ((Get cfg embed now s q).2.metrics.CacheHits = s.metrics.CacheHits + 1
        ∧ (Get cfg embed now s q).2.metrics.CacheMisses = s.metrics.CacheMisses
      ∨ (Get cfg embed now s q).2.metrics.CacheMisses = s.metrics.CacheMisses + 1
        ∧ (Get cfg embed now s q).2.metrics.CacheHits = s.metrics.CacheHits) := by
  rcases hemb : embed q with _ | qv
  · refine ⟨?_, Or.inr ⟨?_, ?_⟩⟩ <;> simp [Get, hemb]
  · rcases hscan : scanBest cfg.SimilarityThreshold s.entries s.keys s.vectors qv now
      with _ | best
    · refine ⟨?_, Or.inr ⟨?_, ?_⟩⟩ <;> simp [Get, hemb, hscan]
    · refine ⟨?_, Or.inl ⟨?_, ?_⟩⟩ <;> simp [Get, hemb, hscan]

theorem prune_counters (cfg : Config) (now : Int) (s : SemanticCache V) :
    (prune cfg now s).metrics.TotalRequests = s.metrics.TotalRequests
    ∧ (prune cfg now s).metrics.CacheHits = s.metrics.CacheHits
    ∧ (prune cfg now s).metrics.CacheMisses = s.metrics.CacheMisses := by
  refine ⟨?_, ?_, ?_⟩ <;> simp [prune]

theorem Set_counters (cfg : Config) (embed : String → Option Vector)
    (calcSize : V → Int) (now : Int) (s : SemanticCache V) (q : String) (v : V) :
    (Set cfg embed calcSize now s q v).2.metrics.TotalRequests
      = s.metrics.TotalRequests
    ∧ (Set cfg embed calcSize now s q v).2.metrics.CacheHits
      = s.metrics.CacheHits
    ∧ (Set cfg embed calcSize now s q v).2.metrics.CacheMisses
      = s.metrics.CacheMisses := by
  rcases hemb : embed q with _ | vec
  · refine ⟨?_, ?_, ?_⟩ <;> simp [Set, hemb]
  · rcases hif : decide (s.metrics.Size + calcSize v > cfg.MaxCacheSize) with _ | _
    · refine ⟨?_, ?_, ?_⟩ <;>
        simp [Set, hemb, of_decide_eq_false hif]
    · refine ⟨?_, ?_, ?_⟩ <;>
        simp [Set, hemb, of_decide_eq_true hif, prune_counters]

theorem Delete_counters (s : SemanticCache V) (k : String) :
    (Delete s k).metrics.TotalRequests = s.metrics.TotalRequests
    ∧ (Delete s k).metrics.CacheHits = s.metrics.CacheHits
    ∧ (Delete s k).metrics.CacheMisses = s.metrics.CacheMisses := by
  rcases hl : List.lookup k s.entries with _ | e <;>
    refine ⟨?_, ?_, ?_⟩ <;> simp [Delete, hl]

theorem Clear_counters (s : SemanticCache V) :
    (Clear s).metrics.TotalRequests = s.metrics.TotalRequests
    ∧ (Clear s).metrics.CacheHits = s.metrics.CacheHits
    ∧ (Clear s).metrics.CacheMisses = s.metrics.CacheMisses := by
  refine ⟨?_, ?_, ?_⟩ <;> simp [Clear]

theorem applyOp_hit_miss_invariant (cfg : Config) (embed : String → Option Vector)
    (calcSize : V → Int) (s : SemanticCache V) (op : CacheOp V)
    (h : s.metrics.CacheHits + s.metrics.CacheMisses = s.metrics.TotalRequests) :
    (applyOp cfg embed calcSize s op).metrics.CacheHits
        + (applyOp cfg embed calcSize s op).metrics.CacheMisses
      = (applyOp cfg embed calcSize s op).metrics.TotalRequests := by
  cases op with
  | get now q =>
    obtain ⟨ht, hcase⟩ := Get_metrics cfg embed now s q
    rcases hcase with ⟨hh, hm⟩ | ⟨hm, hh⟩ <;>
      simp [applyOp, ht, hh, hm] <;> omega
  | set now q v =>
    obtain ⟨ht, hh, hm⟩ := Set_counters cfg embed calcSize now s q v
    simp [applyOp, ht, hh, hm, h]
  | del k =>
    obtain ⟨ht, hh, hm⟩ := Delete_counters s k
    simp [applyOp, ht, hh, hm, h]
  | clear =>
    obtain ⟨ht, hh, hm⟩ := Clear_counters (V := V) s
    simp [applyOp, ht, hh, hm, h]

theorem runOps_hit_miss_invariant (cfg : Config) (embed : String → Option Vector)
    (calcSize : V → Int) (ops : List (CacheOp V)) :
    ∀ s : SemanticCache V,
      s.metrics.CacheHits + s.metrics.CacheMisses = s.metrics.TotalRequests →
      (runOps cfg embed calcSize s ops).metrics.CacheHits
          + (runOps cfg embed calcSize s ops).metrics.CacheMisses
        = (runOps cfg embed calcSize s ops).metrics.TotalRequests := by
  induction ops with
  | nil => intro s h; simpa [runOps] using h
  | cons op rest ih =>
    intro s h
    have hstep := applyOp_hit_miss_invariant cfg embed calcSize s op h
    simpa [runOps] using ih (applyOp cfg embed calcSize s op) hstep

/-- C10: starting from a fresh cache, after any sequence of `Get`, `Set`,
`Delete` and `Clear` operations the metrics satisfy
`CacheHits + CacheMisses = TotalRequests`; moreover each `Get` increments
`TotalRequests` by exactly 1 and exactly one of `CacheHits`/`CacheMisses` by
exactly 1 (the embedding-failure path included, which counts as a miss), and
none of `Set`, `Delete`, `Clear` modifies any of the three counters. -/
theorem C10_hit_miss_total_requests (cfg : Config)
    (embed : String → Option Vector) (calcSize : V → Int) :
    (∀ (now : Int) (s : SemanticCache V) (q : String),
      (Get cfg embed now s q).2.metrics.TotalRequests
        = s.metrics.TotalRequests + 1
      ∧ ((Get cfg embed now s q).2.metrics.CacheHits = s.metrics.CacheHits + 1
          ∧ (Get cfg embed now s q).2.metrics.CacheMisses = s.metrics.CacheMisses
        ∨ (Get cfg embed now s q).2.metrics.CacheMisses
            = s.metrics.CacheMisses + 1
          ∧ (Get cfg embed now s q).2.metrics.CacheHits = s.metrics.CacheHits))
    ∧ (∀ (now : Int) (s : SemanticCache V) (q : String) (v : V),
        (Set cfg embed calcSize now s q v).2.metrics.TotalRequests
          = s.metrics.TotalRequests
        ∧ (Set cfg embed calcSize now s q v).2.metrics.CacheHits
          = s.metrics.CacheHits
        ∧ (Set cfg embed calcSize now s q v).2.metrics.CacheMisses
          = s.metrics.CacheMisses)
    ∧ (∀ (s : SemanticCache V) (k : String),
        (Delete s k).metrics.TotalRequests = s.metrics.TotalRequests
        ∧ (Delete s k).metrics.CacheHits = s.metrics.CacheHits
        ∧ (Delete s k).metrics.CacheMisses = s.metrics.CacheMisses)
    ∧ (∀ s : SemanticCache V,
        (Clear s).metrics.TotalRequests = s.metrics.TotalRequests
        ∧ (Clear s).metrics.CacheHits = s.metrics.CacheHits
        ∧ (Clear s).metrics.CacheMisses = s.metrics.CacheMisses)
    ∧ (∀ ops : List (CacheOp V),
        (runOps cfg embed calcSize (emptyCache V) ops).metrics.CacheHits
            + (runOps cfg embed calcSize (emptyCache V) ops).metrics.CacheMisses
          = (runOps cfg embed calcSize (emptyCache V) ops).metrics.TotalRequests) :=
  ⟨fun now s q => Get_metrics cfg embed now s q,
   fun now s q v => Set_counters cfg embed calcSize now s q v,
   fun s k => Delete_counters s k,
   fun s => Clear_counters s,
   fun ops => runOps_hit_miss_invariant cfg embed calcSize ops (emptyCache V)
     (by simp [emptyCache])⟩

/-! ## Claim C2 -/

/-- C2 (code_bug evidence): overwriting an existing key breaks the size
invariant.  On a fresh cache, `Set "k"` with entry size 5 followed by a
second `Set "k"` (same key, same size) leaves the running `metrics.Size` at
10 while the entry map holds a single entry of size 5, so the running total
does not equal the sum of the live entries' sizes. -/
theorem C2_overwrite_size_eval :
    ((Set cfgW (fun _ => some [1]) (fun _ => (5 : Int)) 0
        (Set cfgW (fun _ => some [1]) (fun _ => (5 : Int)) 0
          (emptyCache Nat) "k" 3).2
        "k" 3).2.metrics.Size = 10
    ∧ sumSizes ((Set cfgW (fun _ => some [1]) (fun _ => (5 : Int)) 0
        (Set cfgW (fun _ => some [1]) (fun _ => (5 : Int)) 0
          (emptyCache Nat) "k" 3).2
        "k" 3).2.entries) = 5)
    ∧ (10 : Int) ≠ 5 := by
  constructor
  · constructor <;> decide
  · decide

/-! ## Claim C6 -/

theorem lookup_mapInsert (l : List (String × α)) (k : String) (v : α) :
    List.lookup k (mapInsert l k v) = some v := by
  induction l with
  | nil => simp [mapInsert]
  | cons p rest ih =>
    by_cases h : p.1 = k
    · simpa [mapInsert, h] using ih
    · have h' : (k == p.1) = false := beq_eq_false_iff_ne.mpr (Ne.symm h)
      simp only [mapInsert, List.filter_cons] at ih ⊢
      simp only [h, ne_eq, not_false_iff, if_pos, decide_not]
      simpa [List.lookup, h'] using ih

theorem getD_concat (l : List α) (x d : α) : (l ++ [x]).getD l.length d = x := by
  simp [List.getD, List.getElem?_concat_length]

theorem scanStep_absorb (θ : ℝ) (entries : List (String × CacheEntry V))
    (K : String) (q : Vector) (now : Int) (newEntry : CacheEntry V)
    (hlook : List.lookup K entries = some newEntry)
    (hexp : isExpired newEntry now = false) :
    ∀ (vs : List Vector) (m : ℝ),
      (vs.foldl (scanStep θ entries K q now) (m, some (K, newEntry))).2
        = some (K, newEntry) := by
  intro vs
  induction vs with
  | nil => intro m; rfl
  | cons v rest ih =>
    intro m
    rw [List.foldl_cons]
    by_cases hc : cosineSimilarity q v > m ∧ cosineSimilarity q v ≥ θ
    · have hstep : scanStep θ entries K q now (m, some (K, newEntry)) v
          = (cosineSimilarity q v, some (K, newEntry)) := by
        simp [scanStep, hc, hlook, hexp]
      rw [hstep, ih]
    · have hstep : scanStep θ entries K q now (m, some (K, newEntry)) v
          = (m, some (K, newEntry)) := by
        simp [scanStep, hc]
      rw [hstep, ih]

theorem scanFold_from_none (θ : ℝ) (entries : List (String × CacheEntry V))
    (K : String) (q : Vector) (now : Int) (newEntry : CacheEntry V)
    (hlook : List.lookup K entries = some newEntry)
    (hexp : isExpired newEntry now = false) :
    ∀ (vs : List Vector) (m : ℝ),
      (vs.foldl (scanStep θ entries K q now) (m, none)).2 = some (K, newEntry)
      ∨ vs.foldl (scanStep θ entries K q now) (m, none) = (m, none) := by
  intro vs
  induction vs with
  | nil => intro m; exact Or.inr rfl
  | cons v rest ih =>
    intro m
    rw [List.foldl_cons]
    by_cases hc : cosineSimilarity q v > m ∧ cosineSimilarity q v ≥ θ
    · left
      have hstep : scanStep θ entries K q now (m, none) v
          = (cosineSimilarity q v, some (K, newEntry)) := by
        simp [scanStep, hc, hlook, hexp]
      rw [hstep]
      exact scanStep_absorb θ entries K q now newEntry hlook hexp rest _
    · have hstep : scanStep θ entries K q now (m, none) v = (m, none) := by
        simp [scanStep, hc]
      rw [hstep]
      exact ih m

/-- When the query's own vector is the last one of the index, its key is
bound to a live entry, and the query's self-similarity reaches the
threshold, the scan ends on that entry. -/
theorem scanBest_concat (θ : ℝ) (entries : List (String × CacheEntry V))
    (keys : List String) (vs0 : List Vector) (e : Vector) (now : Int)
    (newEntry : CacheEntry V)
    (hlook : List.lookup (keys.getD ((vs0 ++ [e]).length - 1) "") entries
      = some newEntry)
    (hexp : isExpired newEntry now = false)
    (hsim : cosineSimilarity e e ≥ θ) :
    scanBest θ entries keys (vs0 ++ [e]) e now
      = some (keys.getD ((vs0 ++ [e]).length - 1) "", newEntry) := by
  unfold scanBest
  set K := keys.getD ((vs0 ++ [e]).length - 1) "" with hK
  rw [List.foldl_append]
  rcases scanFold_from_none θ entries K e now newEntry hlook hexp vs0 (-1) with h | h
  · have hpair : vs0.foldl (scanStep θ entries K e now) ((-1 : ℝ), none)
        = ((vs0.foldl (scanStep θ entries K e now) ((-1 : ℝ), none)).1,
           some (K, newEntry)) := by
      rw [← h]
    rw [hpair]
    exact scanStep_absorb θ entries K e now newEntry hlook hexp [e] _
  · rw [h]
    have hc : cosineSimilarity e e > (-1 : ℝ) ∧ cosineSimilarity e e ≥ θ :=
      ⟨lt_of_lt_of_le (by norm_num) (cosineSimilarity_self_nonneg e), hsim⟩
    simp only [List.foldl_cons, List.foldl_nil]
    simp [scanStep, hc, hlook, hexp]

theorem prune_arrays_length (cfg : Config) (now : Int) (s : SemanticCache V) :
    (prune cfg now s).vectors.length = (prune cfg now s).keys.length := by
  simp [prune]

/-- C6: `Set(ctx, k, v)` followed immediately by `Get(ctx, k)` — same
process, no intervening prune, embedding succeeding deterministically with
vector `e`, the parallel arrays in lock-step, a nonnegative TTL — returns
`(v, true)` whenever the cosine similarity of `k`'s own embedding to itself
is at or above the configured similarity threshold. -/
theorem C6_set_then_get (cfg : Config) (embed : String → Option Vector)
    (calcSize : V → Int) (now : Int) (s : SemanticCache V) (k : String) (v : V)
    (e : Vector) (hemb : embed k = some e)
    (hsim : cosineSimilarity e e ≥ cfg.SimilarityThreshold)
    (httl : 0 ≤ cfg.TTL)
    (hlen : s.vectors.length = s.keys.length) :
    (Set cfg embed calcSize now s k v).1 = Except.ok ()
    ∧ (Get cfg embed now (Set cfg embed calcSize now s k v).2 k).1
      = (some v, true) := by
  constructor
  · simp [Set, hemb]
  · have hset : (Set cfg embed calcSize now s k v).2
        = { entries := mapInsert (if s.metrics.Size + calcSize v > cfg.MaxCacheSize
              then prune cfg now s else s).entries k
              { Key := k, Response := v, Embedding := e, CreatedAt := now,
                LastAccessed := now, AccessCount := 0, Size := calcSize v,
                TTL := cfg.TTL },
            vectors := (if s.metrics.Size + calcSize v > cfg.MaxCacheSize
              then prune cfg now s else s).vectors ++ [e],
            keys := (if s.metrics.Size + calcSize v > cfg.MaxCacheSize
              then prune cfg now s else s).keys ++ [k],
            metrics := { (if s.metrics.Size + calcSize v > cfg.MaxCacheSize
              then prune cfg now s else s).metrics with
              Size := (if s.metrics.Size + calcSize v > cfg.MaxCacheSize
                then prune cfg now s else s).metrics.Size + calcSize v } } := by
      simp only [Set, hemb]
    set s1 : SemanticCache V := if s.metrics.Size + calcSize v > cfg.MaxCacheSize
      then prune cfg now s else s with hs1
    have hlen1 : s1.vectors.length = s1.keys.length := by
      rw [hs1]
      split
      · exact prune_arrays_length cfg now s
      · exact hlen
    set newEntry : CacheEntry V :=
      { Key := k, Response := v, Embedding := e, CreatedAt := now,
        LastAccessed := now, AccessCount := 0, Size := calcSize v,
        TTL := cfg.TTL } with hne
    have hkey : (s1.keys ++ [k]).getD ((s1.vectors ++ [e]).length - 1) "" = k := by
      have : (s1.vectors ++ [e]).length - 1 = s1.keys.length := by
        simp [hlen1]
      rw [this, getD_concat]
    have hexp : isExpired newEntry now = false := by
      simp only [hne, isExpired]
      simp only [decide_eq_false_iff_not, not_lt]
      omega
    have hlook : List.lookup ((s1.keys ++ [k]).getD ((s1.vectors ++ [e]).length - 1) "")
        (mapInsert s1.entries k newEntry) = some newEntry := by
      rw [hkey]
      exact lookup_mapInsert s1.entries k newEntry
    have hscan : scanBest cfg.SimilarityThreshold
        (mapInsert s1.entries k newEntry) (s1.keys ++ [k]) (s1.vectors ++ [e])
        e now
        = some ((s1.keys ++ [k]).getD ((s1.vectors ++ [e]).length - 1) "",
            newEntry) :=
      scanBest_concat cfg.SimilarityThreshold (mapInsert s1.entries k newEntry)
        (s1.keys ++ [k]) s1.vectors e now newEntry hlook hexp hsim
    rw [hset]
    simp only [Get, hemb]
    rw [hscan]

/-- C6 (witness): the theorem applied on a fresh cache with a deterministic
one-dimensional embedding `[1]`, whose self-similarity is `1 ≥ 0.85`;
`Set "k" 7` then `Get "k"` returns `(7, true)`. -/
theorem C6_set_then_get_witness :
    (Set cfgW (fun _ => some [1]) (fun _ => (1 : Int)) 0
        (emptyCache Nat) "k" 7).1 = Except.ok ()
    ∧ (Get cfgW (fun _ => some [1]) 0
        (Set cfgW (fun _ => some [1]) (fun _ => (1 : Int)) 0
          (emptyCache Nat) "k" 7).2 "k").1 = (some 7, true) :=
  C6_set_then_get cfgW (fun _ => some [1]) (fun _ => (1 : Int)) 0
    (emptyCache Nat) "k" 7 [1] rfl
    (by
      have h1 : dotSum [(1 : ℝ)] [(1 : ℝ)] = 1 := by norm_num [dotSum]
      have hc := cosineSimilarity_self (a := [(1 : ℝ)]) (by rw [h1]; norm_num)
      rw [hc]
      norm_num [cfgW])
    (by norm_num [cfgW])
    rfl

/-! ## Claim C1 -/

/-- C1 (code_bug evidence): with threshold 0.85, cache state `sC1` (entries
`"a"` with vector `[1,0]` and `"b"` with vector `[0,1]`, both live), and a
query embedding to `[1,0]`, the unique live entry of maximum cosine
similarity is `"a"` (similarity 1 versus 0), yet `Get` returns entry `"b"`'s
response: the scan loop reads `sc.keys[len(sc.vectors)-1]` — always the last
key — instead of the key of the vector that matched. -/
theorem C1_get_wrong_entry_eval :
    (Get cfgW (fun _ => some [(1 : ℝ), 0]) 0 sC1 "query").1
      = (some entryB.Response, true)
    ∧ cosineSimilarity [(1 : ℝ), 0] entryA.Embedding = 1
    ∧ cosineSimilarity [(1 : ℝ), 0] entryB.Embedding = 0
    ∧ isExpired entryA 0 = false
    ∧ entryA.Response ≠ entryB.Response := by
  have hA : dotSum [(1 : ℝ), 0] [(1 : ℝ), 0] = 1 := by norm_num [dotSum]
  have hB : dotSum [(0 : ℝ), 1] [(0 : ℝ), 1] = 1 := by norm_num [dotSum]
  have hAB : dotSum [(1 : ℝ), 0] [(0 : ℝ), 1] = 0 := by norm_num [dotSum]
  have hcosA : cosineSimilarity [(1 : ℝ), 0] [(1 : ℝ), 0] = 1 :=
    cosineSimilarity_self (by rw [hA]; norm_num)
  have hcosAB : cosineSimilarity [(1 : ℝ), 0] [(0 : ℝ), 1] = 0 := by
    unfold cosineSimilarity
    rw [hA, hB, hAB, Real.sqrt_one]
    norm_num
  have hscan : scanBest cfgW.SimilarityThreshold sC1.entries sC1.keys
      sC1.vectors [(1 : ℝ), 0] 0 = some ("b", entryB) := by
    have hv : sC1.vectors = [[(1 : ℝ), 0], [(0 : ℝ), 1]] := rfl
    have hk : sC1.keys = ["a", "b"] := rfl
    rw [hv, hk]
    unfold scanBest
    have hKval : (["a", "b"].getD
        (([[(1 : ℝ), 0], [(0 : ℝ), 1]] : List Vector).length - 1) "") = "b" := rfl
    rw [hKval]
    have hlookB : List.lookup "b" sC1.entries = some entryB := rfl
    have hexpB : isExpired entryB 0 = false := rfl
    have hstep1 : scanStep cfgW.SimilarityThreshold sC1.entries "b"
        [(1 : ℝ), 0] 0 ((-1 : ℝ), none) [(1 : ℝ), 0]
        = (1, some ("b", entryB)) := by
      have hc : cosineSimilarity [(1 : ℝ), 0] [(1 : ℝ), 0] > (-1 : ℝ)
          ∧ cosineSimilarity [(1 : ℝ), 0] [(1 : ℝ), 0]
              ≥ cfgW.SimilarityThreshold := by
        rw [hcosA]
        constructor <;> norm_num [cfgW]
      have hθ : cfgW.SimilarityThreshold ≤ 1 := by norm_num [cfgW]
      simp [scanStep, hc, hlookB, hexpB, hcosA, hθ]
    have hstep2 : scanStep cfgW.SimilarityThreshold sC1.entries "b"
        [(1 : ℝ), 0] 0 ((1 : ℝ), some ("b", entryB)) [(0 : ℝ), 1]
        = (1, some ("b", entryB)) := by
      have hc : ¬(cosineSimilarity [(1 : ℝ), 0] [(0 : ℝ), 1] > (1 : ℝ)
          ∧ cosineSimilarity [(1 : ℝ), 0] [(0 : ℝ), 1]
              ≥ cfgW.SimilarityThreshold) := by
        rw [hcosAB]
        rintro ⟨h1, -⟩
        norm_num at h1
      simp [scanStep, hc]
    rw [List.foldl_cons, hstep1, List.foldl_cons, hstep2, List.foldl_nil]
  refine ⟨?_, hcosA, hcosAB, rfl, by decide⟩
  simp only [Get]
  rw [hscan]

/-! ## Claim C5 -/

theorem sorted_sortByLastAccessed (l : List (String × CacheEntry V)) :
    List.Sorted leLastAccessed (sortByLastAccessed l) :=
  List.sorted_insertionSort leLastAccessed l

theorem perm_sortByLastAccessed (l : List (String × CacheEntry V)) :
    (sortByLastAccessed l).Perm l :=
  List.perm_insertionSort leLastAccessed l

theorem sumSizes_perm {l1 l2 : List (String × CacheEntry V)} (h : l1.Perm l2) :
    sumSizes l1 = sumSizes l2 :=
  List.Perm.sum_eq (h.map _)

theorem sumSizes_filter_partition (pred : (String × CacheEntry V) → Bool)
    (l : List (String × CacheEntry V)) :
    sumSizes l = sumSizes (l.filter pred)
      + sumSizes (l.filter (fun a => !pred a)) := by
  induction l with
  | nil => simp [sumSizes]
  | cons e rest ih =>
    rcases he : pred e with _ | _ <;>
      · simp [sumSizes, List.filter_cons, he] at ih ⊢
        omega

theorem length_filter_partition (pred : (String × CacheEntry V) → Bool)
    (l : List (String × CacheEntry V)) :
    l.length = (l.filter pred).length
      + (l.filter (fun a => !pred a)).length := by
  induction l with
  | nil => simp
  | cons e rest ih =>
    rcases he : pred e with _ | _ <;>
      · simp [List.filter_cons, he]
        omega

theorem evictLRU_le (maxCacheSize : Int) :
    ∀ (l : List (String × CacheEntry V)) (size : Int),
      size - sumSizes l ≤ maxCacheSize →
      (evictLRU maxCacheSize size l).1 ≤ maxCacheSize := by
  intro l
  induction l with
  | nil =>
    intro size h
    simpa [evictLRU, sumSizes] using h
  | cons e rest ih =>
    intro size h
    by_cases hle : size ≤ maxCacheSize
    · simpa [evictLRU, hle] using hle
    · have hrec := ih (size - e.2.Size) (by
        simp only [sumSizes, List.map_cons, List.sum_cons] at h
        simp only [sumSizes]
        omega)
      simpa [evictLRU, hle] using hrec

theorem evictLRU_spec (maxCacheSize : Int) :
    ∀ (l : List (String × CacheEntry V)) (size : Int),
      ∃ dropped : List (String × CacheEntry V),
        l = dropped ++ (evictLRU maxCacheSize size l).2.1
        ∧ (evictLRU maxCacheSize size l).1 = size - sumSizes dropped
        ∧ (evictLRU maxCacheSize size l).2.2 = dropped.length
        ∧ ∀ i < dropped.length,
            maxCacheSize < size - sumSizes (dropped.take i) := by
  intro l
  induction l with
  | nil =>
    intro size
    refine ⟨[], by simp [evictLRU], by simp [evictLRU, sumSizes], by simp [evictLRU], ?_⟩
    intro i hi
    simp at hi
  | cons e rest ih =>
    intro size
    by_cases hle : size ≤ maxCacheSize
    · refine ⟨[], by simp [evictLRU, hle], by simp [evictLRU, hle, sumSizes],
        by simp [evictLRU, hle], ?_⟩
      intro i hi
      simp at hi
    · obtain ⟨dropped, h1, h2, h3, h4⟩ := ih (size - e.2.Size)
      refine ⟨e :: dropped, ?_, ?_, ?_, ?_⟩
      · simp only [evictLRU, if_neg hle]
        simpa using h1
      · simp only [evictLRU, if_neg hle]
        rw [h2]
        simp only [sumSizes, List.map_cons, List.sum_cons]
        omega
      · simp only [evictLRU, if_neg hle]
        rw [h3]
        simp
      · intro i hi
        cases i with
        | zero =>
          simp only [List.take_zero, sumSizes, List.map_nil, List.sum_nil]
          omega
        | succ j =>
          have hj : j < dropped.length := by simpa using hi
          have hrec := h4 j hj
          simp only [List.take_succ_cons, sumSizes, List.map_cons, List.sum_cons]
          simp only [sumSizes] at hrec
          omega

/-- C5: when the running size equals the sum of the live entries' sizes and
the budget is nonnegative, a completed prune pass leaves (1) no TTL-expired
entry at the observation time; (2) a reported size (`GetStats().Size`) at or
below `MaxCacheSize`; (3) the eviction counter increased by exactly the
number of entries removed; and (4) when the total still exceeded
`MaxCacheSize` after TTL removal, the evicted entries form a prefix of the
survivors sorted by ascending `LastAccessed` — every evicted entry was last
accessed no later than every survivor — and each eviction happened only
while the running total still exceeded `MaxCacheSize`. -/
theorem C5_prune_spec (cfg : Config) (now : Int) (s : SemanticCache V)
    (hinv : s.metrics.Size = sumSizes s.entries)
    (hmax : 0 ≤ cfg.MaxCacheSize) :
    (∀ p ∈ (prune cfg now s).entries, isExpired p.2 now = false)
    ∧ (GetStats (prune cfg now s)).Size ≤ cfg.MaxCacheSize
    ∧ (prune cfg now s).metrics.EvictionCount
        = s.metrics.EvictionCount
          + (s.entries.length - (prune cfg now s).entries.length)
    ∧ (sumSizes (s.entries.filter (fun p => !isExpired p.2 now))
          > cfg.MaxCacheSize →
        ∃ dropped,
          sortByLastAccessed (s.entries.filter (fun p => !isExpired p.2 now))
            = dropped ++ (prune cfg now s).entries
          ∧ (∀ d ∈ dropped, ∀ q ∈ (prune cfg now s).entries,
              d.2.LastAccessed ≤ q.2.LastAccessed)
          ∧ ∀ i < dropped.length,
              cfg.MaxCacheSize
                < sumSizes (s.entries.filter (fun p => !isExpired p.2 now))
                  - sumSizes (dropped.take i)) := by
  have hpartS : sumSizes s.entries
      = sumSizes (s.entries.filter (fun p => isExpired p.2 now))
        + sumSizes (s.entries.filter (fun p => !isExpired p.2 now)) :=
    sumSizes_filter_partition _ _
  have hpartL : s.entries.length
      = (s.entries.filter (fun p => isExpired p.2 now)).length
        + (s.entries.filter (fun p => !isExpired p.2 now)).length :=
    length_filter_partition _ _
  have hsize1A : s.metrics.Size
      - sumSizes (s.entries.filter (fun p => isExpired p.2 now))
      = sumSizes (s.entries.filter (fun p => !isExpired p.2 now)) := by
    omega
  by_cases hover : s.metrics.Size
      - sumSizes (s.entries.filter (fun p => isExpired p.2 now))
      > cfg.MaxCacheSize
  · -- eviction branch
    obtain ⟨dropped, hd1, hd2, hd3, hd4⟩ :=
      evictLRU_spec cfg.MaxCacheSize
        (sortByLastAccessed (s.entries.filter (fun p => !isExpired p.2 now)))
        (s.metrics.Size - sumSizes (s.entries.filter (fun p => isExpired p.2 now)))
    have hperm := perm_sortByLastAccessed
      (s.entries.filter (fun p => !isExpired p.2 now))
    have hsum_sorted := sumSizes_perm hperm
    have hlen_sorted := hperm.length_eq
    have hsorted := sorted_sortByLastAccessed
      (s.entries.filter (fun p => !isExpired p.2 now))
    have hpr_entries : (prune cfg now s).entries
        = (evictLRU cfg.MaxCacheSize
            (s.metrics.Size
              - sumSizes (s.entries.filter (fun p => isExpired p.2 now)))
            (sortByLastAccessed
              (s.entries.filter (fun p => !isExpired p.2 now)))).2.1 := by
      simp only [prune]
      rw [if_pos hover]
    have hpr_size : (prune cfg now s).metrics.Size
        = (evictLRU cfg.MaxCacheSize
            (s.metrics.Size
              - sumSizes (s.entries.filter (fun p => isExpired p.2 now)))
            (sortByLastAccessed
              (s.entries.filter (fun p => !isExpired p.2 now)))).1 := by
      simp only [prune]
      rw [if_pos hover]
    have hpr_ev : (prune cfg now s).metrics.EvictionCount
        = s.metrics.EvictionCount
          + (s.entries.filter (fun p => isExpired p.2 now)).length
          + (evictLRU cfg.MaxCacheSize
              (s.metrics.Size
                - sumSizes (s.entries.filter (fun p => isExpired p.2 now)))
              (sortByLastAccessed
                (s.entries.filter (fun p => !isExpired p.2 now)))).2.2 := by
      simp only [prune]
      rw [if_pos hover]
    refine ⟨?_, ?_, ?_, ?_⟩
    · intro p hp
      rw [hpr_entries] at hp
      have hmem : p ∈ sortByLastAccessed
          (s.entries.filter (fun p => !isExpired p.2 now)) := by
        rw [hd1]
        exact List.mem_append_right _ hp
      have hinA := hperm.mem_iff.mp hmem
      have := (List.mem_filter.mp hinA).2
      simpa using this
    · have hlez : (s.metrics.Size
          - sumSizes (s.entries.filter (fun p => isExpired p.2 now)))
          - sumSizes (sortByLastAccessed
              (s.entries.filter (fun p => !isExpired p.2 now)))
          ≤ cfg.MaxCacheSize := by
        rw [hsum_sorted]
        omega
      have := evictLRU_le cfg.MaxCacheSize _ _ hlez
      simp only [GetStats]
      rw [hpr_size]
      exact this
    · have hlen_split := congrArg List.length hd1
      simp only [List.length_append] at hlen_split
      rw [hpr_ev, hd3, hpr_entries]
      omega
    · intro _
      refine ⟨dropped, ?_, ?_, ?_⟩
      · rw [hpr_entries]
        exact hd1
      · intro d hd q hq
        rw [hpr_entries] at hq
        rw [hd1] at hsorted
        exact (List.pairwise_append.mp hsorted).2.2 d hd q hq
      · intro i hi
        have := hd4 i hi
        omega
  · -- no eviction needed after TTL removal
    have hpr_entries : (prune cfg now s).entries
        = s.entries.filter (fun p => !isExpired p.2 now) := by
      simp only [prune]
      rw [if_neg hover]
    have hpr_size : (prune cfg now s).metrics.Size
        = s.metrics.Size
          - sumSizes (s.entries.filter (fun p => isExpired p.2 now)) := by
      simp only [prune]
      rw [if_neg hover]
    have hpr_ev : (prune cfg now s).metrics.EvictionCount
        = s.metrics.EvictionCount
          + (s.entries.filter (fun p => isExpired p.2 now)).length + 0 := by
      simp only [prune]
      rw [if_neg hover]
    refine ⟨?_, ?_, ?_, ?_⟩
    · intro p hp
      rw [hpr_entries] at hp
      have := (List.mem_filter.mp hp).2
      simpa using this
    · simp only [GetStats]
      rw [hpr_size]
      omega
    · rw [hpr_ev, hpr_entries]
      omega
    · intro hover'
      exfalso
      omega

/-- C5 (witness): the theorem applied to a consistent 7-byte two-entry state
against a 5-byte budget — after the prune the reported size is within
budget. -/
theorem C5_prune_spec_witness :
    sPruneW.metrics.Size = sumSizes sPruneW.entries
    ∧ (0 : Int) ≤ cfgSmall.MaxCacheSize
    ∧ (GetStats (prune cfgSmall 0 sPruneW)).Size ≤ cfgSmall.MaxCacheSize :=
  ⟨by decide, by decide,
   (C5_prune_spec cfgSmall 0 sPruneW (by decide) (by decide)).2.1⟩

end GroqClient
